import Mathlib

/-
Shallow embedding of the MySQL document-store adapter in
mysql/mysql_database.go (go-yaaf/yaaf-common-mysql).

The store keeps one two-column table (id, data) per entity type.  Entities
are opaque to the engine: it only uses their id, table-name template, shard
key and serialized document.  The embedding models:

  * Ping                  (retry/interval clamping and bounded probing)
  * tableName             (placeholder resolution for sharded table names)
  * parseConnectionString (URI -> DBConfig + optional SSHConfig)
  * Get / List / Insert / Delete / BulkUpdate / BulkUpsert / BulkSetFields
  * publishChange         (change-event publication)
  * createSSHTunnel's accept loop and copyConn

Backend calls (sql.DB Exec/Query, ssh dial, io.Copy) are external
collaborators; they are modelled as explicit oracle parameters (error or
result values handed to the embedded function), and the table contents are
passed as explicit state.  Machine integers stay within range in every
modelled scenario, so Int/Nat are used directly.
-/

namespace YaafMysql

deriving instance DecidableEq for Except

/-- An entity as the engine sees it: identifier, table-name template, shard
key and its serialized document (the result of Marshal). -/
structure Entity where
  id : String
  table : String
  key : String
  doc : String
deriving DecidableEq, Repr

/-- One entity-type table: rows of (id, data), id being the primary key. -/
abbrev Table := List (String × String)

/-- Row lookup by primary key (SELECT ... WHERE id = $1). -/
def lookupRow : Table → String → Option String
  | [], _ => none
  | r :: rest, i => if r.1 = i then some r.2 else lookupRow rest i

/-- Operation code 1 = Add (EntityAction in the source). -/
def addAction : Nat := 1

/-- Operation code 2 = Update. -/
def updateAction : Nat := 2

/-- Operation code 3 = Delete. -/
def deleteAction : Nat := 3

/-- publishChange (mysql_database.go:1144): returns immediately when the
store has no message bus or the entity is nil; otherwise it builds one
EntityMessage and hands it to the bus.  A bus delivery failure is only
logged, so the function has no error channel at all; its observable effect
is the list of events handed off. -/
def publishChange (hasBus : Bool) (action : Nat) (entity : Option Entity) :
    List (Nat × Entity) :=
  match hasBus, entity with
  | true, some e => [(action, e)]
  | _, _ => []

/-- The retry loop of Ping (mysql_database.go:148): tries probes
`tryNo, tryNo+1, ...` while fuel lasts; a failed probe is followed by a
sleep of `interval` seconds (also after the last attempt).  Returns whether
a probe succeeded and the total seconds slept. -/
def pingLoop (probe : Nat → Bool) (interval : Nat) :
    Nat → Nat → Nat → Bool × Nat
  | 0, _, slept => (false, slept)
  | n + 1, tryNo, slept =>
    if probe tryNo then (true, slept)
    else pingLoop probe interval n (tryNo + 1) (slept + interval)

/-- Ping (mysql_database.go:138): clamps retries to 10 and the interval to
60 seconds, then probes liveness with a sleep between attempts; the probe
oracle maps the attempt number (starting at 1) to the health-check result.
Returns the error (none on success) and the total seconds slept. -/
def ping (probe : Nat → Bool) (retries intervalInSeconds : Nat) :
    Option String × Nat :=
  let r := if retries > 10 then 10 else retries
  let i := if intervalInSeconds > 60 then 60 else intervalInSeconds
  match pingLoop probe i r 1 0 with
  | (true, slept) => (none, slept)
  | (false, slept) =>
    (some "could not establish database connection", slept)

theorem clamp_eq_min (r c : Nat) : (if r > c then c else r) = min r c := by
  split <;> omega

theorem pingLoop_all_fail (probe : Nat → Bool) (i : Nat)
    (hf : ∀ j, probe j = false) :
    ∀ n tryNo slept, pingLoop probe i n tryNo slept = (false, slept + n * i) := by
  intro n
  induction n with
  | zero => intro tryNo slept; simp [pingLoop]
  | succ m ih =>
    intro tryNo slept
    simp only [pingLoop, hf tryNo]
    rw [ih (tryNo + 1) (slept + i)]
    have : slept + i + m * i = slept + (m + 1) * i := by ring
    rw [this]
    simp

theorem pingLoop_first_success (probe : Nat → Bool) (i : Nat) :
    ∀ n tryNo slept k, tryNo ≤ k → k < tryNo + n →
      (∀ j, tryNo ≤ j → j < k → probe j = false) → probe k = true →
      pingLoop probe i n tryNo slept = (true, slept + (k - tryNo) * i) := by
  intro n
  induction n with
  | zero => intro tryNo slept k h1 h2 _ _; omega
  | succ m ih =>
    intro tryNo slept k h1 h2 hbefore hk
    by_cases hfirst : probe tryNo = true
    · have hke : k = tryNo := by
        by_contra hne
        have hlt : tryNo < k := by omega
        have := hbefore tryNo (le_refl _) hlt
        rw [hfirst] at this
        exact Bool.noConfusion this
      subst hke
      simp [pingLoop, hfirst]
    · have hfl : probe tryNo = false := by
        cases h : probe tryNo
        · rfl
        · exact absurd h hfirst
      have hkne : tryNo < k := by
        rcases Nat.lt_or_ge tryNo k with h | h
        · exact h
        · have : k = tryNo := by omega
          subst this
          rw [hk] at hfl
          exact Bool.noConfusion hfl
      simp only [pingLoop, hfl]
      rw [ih (tryNo + 1) (slept + i) k (by omega) (by omega)
        (fun j hj1 hj2 => hbefore j (by omega) hj2) hk]
      have : slept + i + (k - (tryNo + 1)) * i = slept + (k - tryNo) * i := by
        have hs : k - tryNo = (k - (tryNo + 1)) + 1 := by omega
        rw [hs]; ring
      rw [this]
      simp

/-- C6: Ping silently clamps retries to at most 10 and the interval to at
most 60 seconds, probes repeatedly sleeping the interval between attempts,
returns success on the first healthy probe (having slept once per earlier
failed attempt), and against a backend that never answers it returns an
error after exactly clamped-retries * clamped-interval seconds of sleeping;
with retries=3 and interval=1 that is 3 seconds. -/
theorem c6_ping_clamps_and_terminates :
    (∀ probe r i, ping probe r i = ping probe (min r 10) (min i 60)) ∧
    (∀ (probe : Nat → Bool) r i k, 1 ≤ k → k ≤ min r 10 →
      (∀ j, 1 ≤ j → j < k → probe j = false) → probe k = true →
      ping probe r i = (none, (k - 1) * min i 60)) ∧
    (∀ (probe : Nat → Bool) r i, (∀ j, probe j = false) →
      ping probe r i =
        (some "could not establish database connection", min r 10 * min i 60)) ∧
    ping (fun _ => false) 3 1 =
      (some "could not establish database connection", 3) := by
  refine ⟨?_, ?_, ?_, ?_⟩
  · intro probe r i
    simp only [ping, clamp_eq_min]
    have h1 : min (min r 10) 10 = min r 10 := by omega
    have h2 : min (min i 60) 60 = min i 60 := by omega
    rw [h1, h2]
  · intro probe r i k hk1 hk2 hbefore hk
    simp only [ping, clamp_eq_min]
    rw [pingLoop_first_success probe (min i 60) (min r 10) 1 0 k hk1
      (by omega) (fun j hj1 hj2 => hbefore j hj1 hj2) hk]
    simp
  · intro probe r i hf
    simp only [ping, clamp_eq_min]
    rw [pingLoop_all_fail probe (min i 60) hf (min r 10) 1 0]
    simp
  · decide

/-- C6 witness: with a probe that first succeeds on attempt 2, retries 5 and
interval 7, Ping succeeds after exactly one sleep of 7 seconds. -/
theorem c6_witness :
    ping (fun j => decide (j = 2)) 5 7 = (none, 7) := by
  have h := c6_ping_clamps_and_terminates.2.1 (fun j => decide (j = 2)) 5 7 2
    (by decide) (by decide)
    (by
      intro j hj1 hj2
      have : j = 1 := by omega
      subst this
      rfl)
    (by decide)
  simpa using h

/-- The left-brace character, spelled via its code point. -/
def lb : Char := Char.ofNat 123

/-- The right-brace character, spelled via its code point. -/
def rb : Char := Char.ofNat 125

/-- Does `pat` occur at the head of `s`? -/
def pfxMatch : List Char → List Char → Bool
  | [], _ => true
  | _ :: _, [] => false
  | p :: ps, c :: cs => p = c && pfxMatch ps cs

/-- Go strings.Replace(s, pat, rep, -1): scan left to right, replace each
non-overlapping occurrence of `pat` by `rep`, never rescanning what was just
inserted.  Fuel (consumed one unit per emitted position) keeps the recursion
structural; `replaceAll` supplies enough fuel. -/
def replaceFuel (pat rep : List Char) : Nat → List Char → List Char
  | 0, s => s
  | fuel + 1, s =>
    match s with
    | [] => []
    | c :: rest =>
      if !pat.isEmpty && pfxMatch pat s then
        rep ++ replaceFuel pat rep fuel (s.drop pat.length)
      else c :: replaceFuel pat rep fuel rest

/-- strings.Replace with all occurrences replaced (count = -1). -/
def replaceAll (s pat rep : List Char) : List Char :=
  replaceFuel pat rep s.length s

/-- Decimal digit characters of a number, for the positional placeholders
produced by fmt.Sprintf("\x7b\x7b%d\x7d\x7d", idx). -/
def natDigitsFuel : Nat → Nat → List Char
  | 0, n => [Char.ofNat (48 + n % 10)]
  | fuel + 1, n =>
    if n < 10 then [Char.ofNat (48 + n)]
    else natDigitsFuel fuel (n / 10) ++ [Char.ofNat (48 + n % 10)]

/-- Decimal rendering of a natural number. -/
def natDigits (n : Nat) : List Char := natDigitsFuel n n

/-- The positional placeholder for index `i`. -/
def placeholderIdx (i : Nat) : List Char :=
  lb :: lb :: (natDigits i ++ [rb, rb])

/-- The accountId placeholder pattern. -/
def accountIdPat : List Char := "\x7b\x7baccountId\x7d\x7d".toList

/-- The year placeholder pattern. -/
def yearPat : List Char := "\x7b\x7byear\x7d\x7d".toList

/-- The month placeholder pattern. -/
def monthPat : List Char := "\x7b\x7bmonth\x7d\x7d".toList

/-- tableName (mysql_database.go:195): resolves a table-name template
against the shard keys.  With no keys the template is returned as is.
Otherwise the accountId placeholder becomes the 0-positional placeholder,
each positional placeholder is replaced by the corresponding key, and the
year / month placeholders are replaced by the wall-clock year (Format
"2006") and month (Format "01"), passed here as the `nowYear` / `nowMonth`
parameters. -/
def tableName (table : List Char) (keys : List (List Char))
    (nowYear nowMonth : List Char) : List Char :=
  if keys.length = 0 then table
  else
    let t1 := replaceAll table accountIdPat (placeholderIdx 0)
    let t2 := keys.enum.foldl
      (fun acc p => replaceAll acc (placeholderIdx p.1) p.2) t1
    let t3 := replaceAll t2 yearPat nowYear
    replaceAll t3 monthPat nowMonth

theorem replaceFuel_nil (pat rep : List Char) :
    ∀ f, replaceFuel pat rep f [] = [] := by
  intro f
  cases f <;> rfl

theorem replaceFuel_fuel_irrel (pat rep : List Char) :
    ∀ f1 f2 s, s.length ≤ f1 → s.length ≤ f2 →
      replaceFuel pat rep f1 s = replaceFuel pat rep f2 s := by
  intro f1
  induction f1 with
  | zero =>
    intro f2 s h1 _
    have : s = [] := List.length_eq_zero.mp (by omega)
    subst this
    rw [replaceFuel_nil, replaceFuel_nil]
  | succ m ih =>
    intro f2 s h1 h2
    match s with
    | [] => rw [replaceFuel_nil, replaceFuel_nil]
    | c :: rest =>
      match f2 with
      | 0 => simp at h2
      | k + 1 =>
        simp only [replaceFuel]
        by_cases hcond : (!pat.isEmpty && pfxMatch pat (c :: rest)) = true
        · rw [hcond]
          simp only [if_true]
          congr 1
          have hplen : 1 ≤ pat.length := by
            cases pat with
            | nil => simp at hcond
            | cons p ps => simp
          apply ih
          · simp only [List.length_drop, List.length_cons]
            simp only [List.length_cons] at h1
            omega
          · simp only [List.length_drop, List.length_cons]
            simp only [List.length_cons] at h2
            omega
        · rw [Bool.not_eq_true] at hcond
          rw [hcond]
          simp only [Bool.false_eq_true, if_false]
          congr 1
          apply ih
          · simp only [List.length_cons] at h1
            omega
          · simp only [List.length_cons] at h2
            omega

theorem replaceFuel_enough (pat rep : List Char) (fuel : Nat) (s : List Char)
    (hs : s.length ≤ fuel) :
    replaceFuel pat rep fuel s = replaceAll s pat rep :=
  replaceFuel_fuel_irrel pat rep fuel s.length s hs (le_refl _)

theorem pfxMatch_head_ne (p c : Char) (ps s : List Char) (hne : p ≠ c) :
    pfxMatch (p :: ps) (c :: s) = false := by
  simp [pfxMatch, hne]

theorem pfxMatch_append (p s : List Char) : pfxMatch p (p ++ s) = true := by
  induction p with
  | nil => rfl
  | cons c cs ih => simp [pfxMatch, ih]

theorem replaceAll_no_head (h : Char) (ps rep : List Char) :
    ∀ s : List Char, h ∉ s → replaceAll s (h :: ps) rep = s := by
  intro s
  induction s with
  | nil => intro _; rfl
  | cons c rest ih =>
    intro hmem
    have hch : c ≠ h := by
      intro he
      subst he
      exact hmem (List.mem_cons_self _ _)
    have hrest : h ∉ rest := fun hc => hmem (List.mem_cons_of_mem c hc)
    show replaceFuel (h :: ps) rep (c :: rest).length (c :: rest) = c :: rest
    simp only [List.length_cons, replaceFuel]
    rw [pfxMatch_head_ne h c ps rest (Ne.symm hch)]
    simp only [Bool.and_false, Bool.false_eq_true, if_false]
    exact congrArg (List.cons c) (ih hrest)

theorem replaceAll_single_occurrence (h : Char) (ps rep b : List Char) :
    ∀ a : List Char, h ∉ a →
      replaceAll (a ++ h :: (ps ++ b)) (h :: ps) rep =
        a ++ rep ++ replaceAll b (h :: ps) rep := by
  intro a
  induction a with
  | nil =>
    intro _
    simp only [List.nil_append]
    show replaceFuel (h :: ps) rep (h :: (ps ++ b)).length (h :: (ps ++ b)) =
      rep ++ replaceAll b (h :: ps) rep
    simp only [List.length_cons, replaceFuel]
    have hp : pfxMatch (h :: ps) (h :: (ps ++ b)) = true := by
      simp [pfxMatch, pfxMatch_append]
    rw [hp]
    simp only [List.isEmpty_cons, Bool.not_false, Bool.true_and, if_true]
    congr 1
    have hdrop : List.drop (h :: ps).length (h :: (ps ++ b)) = b := by
      simp only [List.length_cons, List.drop_succ_cons]
      exact List.drop_left ps b
    simp only [List.length_cons] at hdrop
    rw [hdrop]
    apply replaceFuel_enough
    simp only [List.length_append]
    omega
  | cons c rest ih =>
    intro hmem
    have hch : c ≠ h := by
      intro he
      subst he
      exact hmem (List.mem_cons_self _ _)
    have hrest : h ∉ rest := fun hc => hmem (List.mem_cons_of_mem c hc)
    show replaceFuel (h :: ps) rep ((c :: rest) ++ h :: (ps ++ b)).length
        ((c :: rest) ++ h :: (ps ++ b)) =
      (c :: rest) ++ rep ++ replaceAll b (h :: ps) rep
    simp only [List.cons_append, List.length_cons, replaceFuel]
    rw [pfxMatch_head_ne h c ps _ (Ne.symm hch)]
    simp only [Bool.and_false, Bool.false_eq_true, if_false]
    refine Eq.trans (congrArg (List.cons c) (ih hrest)) ?_
    simp

/-- C8: with shard keys supplied, tableName replaces the accountId
placeholder with the first shard key, positional placeholders with the
corresponding keys, and the year placeholder with the wall-clock year (the
month placeholder likewise), so the template events_(year)_(0) with shard
key acct1 resolves to events_(current year)_acct1 for any brace-free year
and month strings; with no shard keys the template is returned unchanged,
placeholders and all. -/
theorem c8_tableName_resolution :
    (∀ table nowYear nowMonth, tableName table [] nowYear nowMonth = table) ∧
    (∀ nowYear nowMonth : List Char, lb ∉ nowYear → lb ∉ nowMonth →
      tableName "events_\x7b\x7byear\x7d\x7d_\x7b\x7b0\x7d\x7d".toList
          ["acct1".toList] nowYear nowMonth =
        "events_".toList ++ nowYear ++ "_acct1".toList) ∧
    tableName "t_\x7b\x7baccountId\x7d\x7d_\x7b\x7b1\x7d\x7d".toList
        ["k0".toList, "k1".toList] "2026".toList "10".toList =
      "t_k0_k1".toList := by
  refine ⟨?_, ?_, ?_⟩
  · intro table nowYear nowMonth
    rfl
  · intro nowYear nowMonth hy hm
    show replaceAll
      (replaceAll
        (["acct1".toList].enum.foldl
          (fun acc p => replaceAll acc (placeholderIdx p.1) p.2)
          (replaceAll "events_\x7b\x7byear\x7d\x7d_\x7b\x7b0\x7d\x7d".toList
            accountIdPat (placeholderIdx 0)))
        yearPat nowYear)
      monthPat nowMonth = "events_".toList ++ nowYear ++ "_acct1".toList
    have h1 : ["acct1".toList].enum.foldl
        (fun acc p => replaceAll acc (placeholderIdx p.1) p.2)
        (replaceAll "events_\x7b\x7byear\x7d\x7d_\x7b\x7b0\x7d\x7d".toList
          accountIdPat (placeholderIdx 0)) =
        "events_\x7b\x7byear\x7d\x7d_acct1".toList := by decide
    rw [h1]
    have hy2 : yearPat = lb :: "\x7byear\x7d\x7d".toList := by decide
    have hsplit : "events_\x7b\x7byear\x7d\x7d_acct1".toList =
        "events_".toList ++
          lb :: ("\x7byear\x7d\x7d".toList ++ "_acct1".toList) := by decide
    rw [hsplit, hy2]
    rw [replaceAll_single_occurrence lb "\x7byear\x7d\x7d".toList nowYear
      "_acct1".toList "events_".toList (by decide)]
    rw [replaceAll_no_head lb _ nowYear "_acct1".toList (by decide)]
    have hm2 : monthPat = lb :: "\x7bmonth\x7d\x7d".toList := by decide
    rw [hm2]
    rw [replaceAll_no_head lb _ nowMonth _ ?side]
    case side =>
      intro hin
      rcases List.mem_append.mp hin with hin2 | hin3
      · rcases List.mem_append.mp hin2 with hin4 | hin5
        · exact absurd hin4 (by decide)
        · exact hy hin5
      · exact absurd hin3 (by decide)
  · decide

/-- C8 witness: the generic-year conjunct instantiated at year 2026 and
month 10. -/
theorem c8_witness :
    tableName "events_\x7b\x7byear\x7d\x7d_\x7b\x7b0\x7d\x7d".toList
        ["acct1".toList] "2026".toList "10".toList =
      "events_".toList ++ "2026".toList ++ "_acct1".toList :=
  c8_tableName_resolution.2.1 "2026".toList "10".toList (by decide) (by decide)

/-- SSHConfig (mysql_database.go:27): tunnel credentials parsed from the
ssh_* query parameters. -/
structure SSHConfig where
  username : String
  password : String
  host : String
  port : Int
  keyFile : String
deriving DecidableEq, Repr

/-- DBConfig (mysql_database.go:36): backend connection settings. -/
structure DBConfig where
  username : String
  password : String
  host : String
  port : Int
  dbName : String
  appName : String
  driver : String
deriving DecidableEq, Repr

/-- The already-parsed URI handed to parseConnectionString.  url.Parse and
net.SplitHostPort are external library collaborators: `hostPort` is the
result of net.SplitHostPort on the URI host (none models a split error) and
`query` is url.Values flattened in order of appearance. -/
structure ConnUri where
  scheme : String
  username : String
  password : String
  hostPort : Option (String × String)
  path : String
  query : List (String × String)

/-- params[k][0] of url.Values: the first value carried by key `k`. -/
def getParam (q : List (String × String)) (k : String) : Option String :=
  match q.filter (fun p => p.1 = k) with
  | [] => none
  | p :: _ => some p.2

/-- ASCII lowercasing, the fragment of strings.ToLower exercised by the
scheme check. -/
def lowerChar (c : Char) : Char :=
  if 'A' ≤ c && c ≤ 'Z' then Char.ofNat (c.toNat + 32) else c

/-- strings.ToLower on the scheme. -/
def lowerStr (s : String) : String := ⟨s.toList.map lowerChar⟩

/-- strconv.Atoi as used by the resolver: the source discards the error
(`Port, _ = strconv.Atoi(...)`), leaving the zero value on a parse
failure. -/
def atoiOr0 (s : String) : Int :=
  if s.length ≠ 0 && s.toList.all (fun c => '0' ≤ c && c ≤ '9') then
    s.toList.foldl (fun acc c => acc * 10 + ((c.toNat : Int) - 48)) 0
  else 0

/-- strings.TrimPrefix(path, "/"). -/
def trimLeadSlash (p : String) : String :=
  match p.toList with
  | '/' :: rest => ⟨rest⟩
  | _ => p

/-- parseConnectionString (mysql_database.go:230): validates the scheme and
host:port, resolves the application name (two accepted query-parameter
spellings, falling back to the executable name, passed in as `exeName`),
and builds the optional SSHConfig: present exactly when ssh_host is
present, the remaining tunnel fields defaulting to empty/zero. -/
def parseConnectionString (u : ConnUri) (exeName : String) :
    Except String (DBConfig × Option SSHConfig) :=
  if lowerStr u.scheme ≠ "mysql" then
    .error "schema for postgresql database must be: mysql"
  else
    match u.hostPort with
    | none => .error "host:port parsing failed"
    | some (host, portStr) =>
      let appName :=
        match getParam u.query "application_name" with
        | some v => v
        | none =>
          match getParam u.query "ApplicationName" with
          | some v => v
          | none => exeName
      let dbCfg : DBConfig :=
        ⟨u.username, u.password, host, atoiOr0 portStr,
          trimLeadSlash u.path, appName, lowerStr u.scheme⟩
      match getParam u.query "ssh_host" with
      | none => .ok (dbCfg, none)
      | some h =>
        let s0 : SSHConfig := ⟨"", "", h, 0, ""⟩
        let s1 :=
          match getParam u.query "ssh_port" with
          | some p => { s0 with port := atoiOr0 p }
          | none => s0
        let s2 :=
          match getParam u.query "ssh_user" with
          | some v => { s1 with username := v }
          | none => s1
        let s3 :=
          match getParam u.query "ssh_pwd" with
          | some v => { s2 with password := v }
          | none => s2
        .ok (dbCfg, some s3)

/-- C9: whenever the resolver succeeds, the tunnel descriptor is present
exactly when the ssh_host query parameter is present; and in that case its
host is the ssh_host value while every other tunnel field defaults to
empty/zero when its parameter is absent. -/
theorem c9_ssh_host_iff_tunnel (u : ConnUri) (exeName : String)
    (cfg : DBConfig) (sshCfg : Option SSHConfig)
    (hok : parseConnectionString u exeName = .ok (cfg, sshCfg)) :
    (sshCfg.isSome ↔ (getParam u.query "ssh_host").isSome) ∧
    (∀ s, sshCfg = some s →
      some s.host = getParam u.query "ssh_host" ∧
      (getParam u.query "ssh_port" = none → s.port = 0) ∧
      (getParam u.query "ssh_user" = none → s.username = "") ∧
      (getParam u.query "ssh_pwd" = none → s.password = "") ∧
      s.keyFile = "") := by
  unfold parseConnectionString at hok
  split at hok
  · exact absurd hok (by simp)
  · split at hok
    · exact absurd hok (by simp)
    · rename_i host portStr heq
      cases hhost : getParam u.query "ssh_host" with
      | none =>
        rw [hhost] at hok
        simp only [Except.ok.injEq, Prod.mk.injEq] at hok
        rw [← hok.2]
        simp
      | some h =>
        rw [hhost] at hok
        simp only [Except.ok.injEq, Prod.mk.injEq] at hok
        rw [← hok.2]
        constructor
        · simp
        · intro s hs
          have hs3 := Option.some.inj hs
          subst hs3
          cases hport : getParam u.query "ssh_port" <;>
            cases huser : getParam u.query "ssh_user" <;>
              cases hpwd : getParam u.query "ssh_pwd" <;>
                simp [hport, huser, hpwd]

/-- C9 witness: a mysql URI carrying only ssh_host yields a tunnel
descriptor whose other fields are empty/zero, and dropping ssh_host yields
no tunnel descriptor. -/
theorem c9_witness :
    ((some (⟨"", "", "sh", 0, ""⟩ : SSHConfig)).isSome ↔
      (getParam [("ssh_host", "sh")] "ssh_host").isSome) ∧
    ((none : Option SSHConfig).isSome ↔
      (getParam ([] : List (String × String)) "ssh_host").isSome) :=
  ⟨(c9_ssh_host_iff_tunnel
      ⟨"mysql", "user", "pw", some ("h", "3306"), "/db", [("ssh_host", "sh")]⟩
      "app" ⟨"user", "pw", "h", 3306, "db", "app", "mysql"⟩
      (some ⟨"", "", "sh", 0, ""⟩) (by decide)).1,
   (c9_ssh_host_iff_tunnel
      ⟨"mysql", "user", "pw", some ("h", "3306"), "/db", []⟩
      "app" ⟨"user", "pw", "h", 3306, "db", "app", "mysql"⟩
      none (by decide)).1⟩

/-- Get (mysql_database.go:441): empty-id guard, single-row fetch by id,
then document decode.  `decode` is the Unmarshal collaborator: none models
a deserialization failure. -/
def getOp (decode : String → Option Entity) (t : Table) (entityID : String) :
    Except String Entity :=
  if entityID = "" then .error "empty entity id passed to Get operation"
  else
    match lookupRow t entityID with
    | none => .error ("no row fetched for id: " ++ entityID)
    | some d =>
      match decode d with
      | none => .error "failed to unmarshal document"
      | some e => .ok e

/-- Delete (mysql_database.go:652): fetches the victim via Get first (for
the change event); a fetch error returns immediately, before the DELETE is
issued.  Result: final table, error, published events. -/
def deleteOp (decode : String → Option Entity) (t : Table) (entityID : String)
    (hasBus : Bool) : Table × Option String × List (Nat × Entity) :=
  match getOp decode t entityID with
  | .error m => (t, some m, [])
  | .ok victim =>
    let t2 := t.filter (fun r => r.1 ≠ entityID)
    let affected := t.length - t2.length
    if affected = 0 then
      (t2, some "no row affected when executing delete operation", [])
    else
      (t2, none, publishChange hasBus deleteAction (some victim))

theorem lookupRow_filter_ne (t : Table) (i : String) :
    lookupRow (t.filter (fun r => r.1 ≠ i)) i = none := by
  induction t with
  | nil => rfl
  | cons r rest ih =>
    by_cases hr : r.1 = i
    · simp only [List.filter_cons, hr]
      simp only [ne_eq, decide_not]
      simpa using ih
    · simp only [List.filter_cons]
      have : (decide (r.1 ≠ i)) = true := by simp [hr]
      rw [this]
      simp only [lookupRow, if_neg hr]
      exact ih

/-- C7: a failing pre-fetch makes Delete return that error with the table
untouched and nothing published; and after a successful Delete, Get on the
same id fails with the no-row-fetched (not-found) error. -/
theorem c7_delete_prefetch_short_circuit :
    (∀ decode t entityID hasBus m, getOp decode t entityID = .error m →
      deleteOp decode t entityID hasBus = (t, some m, [])) ∧
    (∀ decode t entityID hasBus t2 ev,
      deleteOp decode t entityID hasBus = (t2, none, ev) →
      getOp decode t2 entityID =
        .error ("no row fetched for id: " ++ entityID)) := by
  constructor
  · intro decode t entityID hasBus m hget
    unfold deleteOp
    rw [hget]
  · intro decode t entityID hasBus t2 ev hdel
    have hid : entityID ≠ "" := by
      intro hempty
      unfold deleteOp getOp at hdel
      rw [if_pos hempty] at hdel
      simp at hdel
    unfold deleteOp at hdel
    cases hget : getOp decode t entityID with
    | error m =>
      rw [hget] at hdel
      simp at hdel
    | ok victim =>
      rw [hget] at hdel
      simp only at hdel
      split at hdel
      · simp at hdel
      · simp only [Prod.mk.injEq] at hdel
        unfold getOp
        rw [if_neg hid, ← hdel.1, lookupRow_filter_ne]

/-- A concrete Unmarshal collaborator: the document "bad" fails to decode,
everything else round-trips into an entity carrying the document. -/
def decodeEx (s : String) : Option Entity :=
  if s = "bad" then none else some ⟨s, "tbl", "k", s⟩

/-- C7 witness: deleting an absent id leaves the one-row table unchanged
and publishes nothing; deleting the present id then getting it reports the
not-found error. -/
theorem c7_witness :
    deleteOp decodeEx [("1", "d1")] "2" true =
      ([("1", "d1")], some "no row fetched for id: 2", []) ∧
    getOp decodeEx [] "1" = .error "no row fetched for id: 1" :=
  ⟨c7_delete_prefetch_short_circuit.1 decodeEx [("1", "d1")] "2" true
      "no row fetched for id: 2" (by decide),
   c7_delete_prefetch_short_circuit.2 decodeEx [("1", "d1")] "1" true
      [] [(deleteAction, ⟨"d1", "tbl", "k", "d1"⟩)] (by decide)⟩

/-- The rows matched by List's WHERE id = ANY(ids). -/
def matchedRows (t : Table) (ids : List String) : List (String × String) :=
  t.filter (fun r => r.1 ∈ ids)

/-- The rows.Next() loop of List (mysql_database.go:532).  `err` is the
named return of the Go function: each iteration overwrites it with the
scan/unmarshal outcome (scan always succeeds here), so after the loop it
holds the decode outcome of the last row; a row that fails to decode is
not appended. -/
def listLoop (decode : String → Option Entity) :
    List Entity → Option String → List (String × String) →
      List Entity × Option String
  | acc, err, [] => (acc, err)
  | acc, _, r :: rest =>
    match decode r.2 with
    | some e => listLoop decode (acc ++ [e]) none rest
    | none => listLoop decode acc (some "failed to unmarshal document") rest

/-- List (mysql_database.go:512): empty id set short-circuits to an empty
result; otherwise the matched rows are scanned and decoded in the loop. -/
def listOp (decode : String → Option Entity) (t : Table) (ids : List String) :
    List Entity × Option String :=
  if ids.length = 0 then ([], none)
  else listLoop decode [] none (matchedRows t ids)

theorem listLoop_fst (decode : String → Option Entity) :
    ∀ rows acc err, (listLoop decode acc err rows).1 =
      acc ++ rows.filterMap (fun r => decode r.2) := by
  intro rows
  induction rows with
  | nil => intro acc err; simp [listLoop]
  | cons r rest ih =>
    intro acc err
    simp only [listLoop]
    cases hd : decode r.2 with
    | none => rw [ih]; simp [List.filterMap_cons, hd]
    | some e => rw [ih]; simp [List.filterMap_cons, hd]

theorem listLoop_snd_last (decode : String → Option Entity) (r : String × String) :
    ∀ rows acc err, (listLoop decode acc err (rows ++ [r])).2 =
      if (decode r.2).isSome then none
      else some "failed to unmarshal document" := by
  intro rows
  induction rows with
  | nil =>
    intro acc err
    simp only [List.nil_append, listLoop]
    cases hd : decode r.2 <;> simp [listLoop]
  | cons x rest ih =>
    intro acc err
    simp only [List.cons_append, listLoop]
    cases hd : decode x.2 <;> simp [ih]

/-- C3 counterexample: with the id set matching two rows whose second
(last) stored document is undecodable, List drops the bad row from the
result but returns a non-nil error — refuting the claim that a decode
failure on the last row still yields a nil error. -/
theorem c3_counterexample :
    (listOp decodeEx [("1", "good"), ("2", "bad")] ["1", "2"]).2 ≠ none ∧
    (listOp decodeEx [("1", "good"), ("2", "bad")] ["1", "2"]).1 =
      [⟨"good", "tbl", "k", "good"⟩] := by
  constructor
  · decide
  · decide

/-- C3 amended: List returns the decoded entities for matched ids only and
drops every undecodable row from the result regardless of position, but the
returned error is the decode outcome of the last matched row: nil when no
row matched or the last matched row decodes, the decode error when the last
matched row fails to decode. -/
theorem c3_list_drops_undecodable :
    (∀ decode t ids, (listOp decode t ids).1 =
      (matchedRows t ids).filterMap (fun r => decode r.2)) ∧
    (∀ decode t ids front r, matchedRows t ids = front ++ [r] →
      ((listOp decode t ids).2 = none ↔ (decode r.2).isSome)) ∧
    (∀ decode t ids, matchedRows t ids = [] →
      (listOp decode t ids).2 = none) := by
  have hempty : ∀ t : Table, matchedRows t [] = [] := by
    intro t
    induction t with
    | nil => rfl
    | cons r rest ih => simp [matchedRows] at ih ⊢
  refine ⟨?_, ?_, ?_⟩
  · intro decode t ids
    unfold listOp
    split
    · rename_i hlen
      have : ids = [] := List.length_eq_zero.mp hlen
      subst this
      rw [hempty]
      rfl
    · rw [listLoop_fst]
      rfl
  · intro decode t ids front r hsplit
    unfold listOp
    split
    · rename_i hlen
      have : ids = [] := List.length_eq_zero.mp hlen
      subst this
      rw [hempty] at hsplit
      exact absurd hsplit.symm (by simp)
    · rw [hsplit, listLoop_snd_last]
      cases hd : decode r.2 <;> simp
  · intro decode t ids hnil
    unfold listOp
    split
    · rfl
    · rw [hnil]
      rfl

/-- C3 witness: the amended error rule applied to the two-row table whose
last matched row is undecodable. -/
theorem c3_witness :
    ((listOp decodeEx [("1", "good"), ("2", "bad")] ["1", "2"]).2 = none ↔
      (decodeEx "bad").isSome) :=
  c3_list_drops_undecodable.2.1 decodeEx [("1", "good"), ("2", "bad")]
    ["1", "2"] [("1", "good")] ("2", "bad") (by decide)

/-- Insert (mysql_database.go:550).  Oracles: `marshalErr` for Marshal,
`execErr` for the INSERT Exec call, `raRes` for result.RowsAffected().
In the source, `if affected, err := result.RowsAffected(); ...` introduces
a fresh `err` scoped to that if-statement; the assignment in the
`affected == 0` branch writes to that shadowed variable, which is discarded
when the statement ends, leaving the function's named return `err` nil — so
the zero-affected case still returns the entity with a nil error and still
publishes.  Result: returned entity, returned error, published events. -/
def insertOp (marshalErr execErr : Option String) (raRes : Except String Int)
    (hasBus : Bool) (e : Entity) :
    Option Entity × Option String × List (Nat × Entity) :=
  match marshalErr with
  | some m => (none, some m, [])
  | none =>
    match execErr with
    | some m => (none, some m, [])
    | none =>
      match raRes with
      | .error m => (none, some m, [])
      | .ok affected =>
        let _shadowedErr : Option String :=
          if affected = 0 then
            some "no row affected when inserting new entity"
          else none
        (some e, none, publishChange hasBus addAction (some e))

/-- A sample entity for concrete evaluations. -/
def entEx : Entity := ⟨"1", "tbl", "k", "doc1"⟩

/-- C2: evaluating Insert at the failing input — the write executes and
affects zero rows — shows it returns the entity with a nil error and still
publishes an Add change event, because the no-rows-affected error is
assigned to a shadowed variable and discarded; the claim (and the intent
visible in the dead error assignment, handled correctly by Update and
Upsert) says it must return the error and publish nothing. -/
theorem c2_insert_zero_affected_eval :
    insertOp none none (.ok 0) true entEx =
      (some entEx, none, [(addAction, entEx)]) ∧
    insertOp none none (.ok 1) true entEx =
      (some entEx, none, [(addAction, entEx)]) := by
  constructor
  · decide
  · decide

/-- C10: publication is entirely optional: with no bus or a nil entity
publishChange hands off nothing (and, having no error channel, reports
nothing); and the entity / error returned by Insert, and the table and
error produced by Delete, are identical with and without a bus. -/
theorem c10_publish_never_affects_mutations :
    (∀ action e, publishChange false action e = []) ∧
    (∀ hasBus action, publishChange hasBus action none = []) ∧
    (∀ marshalErr execErr raRes e hasBus,
      (insertOp marshalErr execErr raRes hasBus e).1 =
        (insertOp marshalErr execErr raRes false e).1 ∧
      (insertOp marshalErr execErr raRes hasBus e).2.1 =
        (insertOp marshalErr execErr raRes false e).2.1) ∧
    (∀ decode t entityID hasBus,
      (deleteOp decode t entityID hasBus).1 =
        (deleteOp decode t entityID false).1 ∧
      (deleteOp decode t entityID hasBus).2.1 =
        (deleteOp decode t entityID false).2.1) := by
  refine ⟨?_, ?_, ?_, ?_⟩
  · intro action e
    cases e <;> rfl
  · intro hasBus action
    cases hasBus <;> rfl
  · intro marshalErr execErr raRes e hasBus
    cases marshalErr with
    | some m => exact ⟨rfl, rfl⟩
    | none =>
      cases execErr with
      | some m => exact ⟨rfl, rfl⟩
      | none =>
        cases raRes with
        | error m => exact ⟨rfl, rfl⟩
        | ok affected => exact ⟨rfl, rfl⟩
  · intro decode t entityID hasBus
    unfold deleteOp
    cases getOp decode t entityID with
    | error m => exact ⟨rfl, rfl⟩
    | ok victim =>
      simp only
      split <;> exact ⟨rfl, rfl⟩

/-- One per-entity UPDATE statement as BulkUpdate issues it — through
`dbs.pgDb.Exec`, i.e. the pooled connection in autocommit mode, not the
opened transaction.  A successful statement is therefore committed
immediately.  `failsFor` is the backend oracle naming the entity ids whose
statement errors. -/
def execUpdate (failsFor : String → Bool) (t : Table) (e : Entity) :
    Except String Table :=
  if failsFor e.id then .error ("exec failed for entity " ++ e.id)
  else .ok (t.map (fun r => if r.1 = e.id then (r.1, e.doc) else r))

/-- The per-entity UPSERT statement of BulkUpsert, likewise issued on the
pooled connection. -/
def execUpsert (failsFor : String → Bool) (t : Table) (e : Entity) :
    Except String Table :=
  if failsFor e.id then .error ("exec failed for entity " ++ e.id)
  else
    match lookupRow t e.id with
    | some _ => .ok (t.map (fun r => if r.1 = e.id then (r.1, e.doc) else r))
    | none => .ok (t ++ [(e.id, e.doc)])

/-- The entity loop shared by BulkUpdate/BulkUpsert (mysql_database.go:750,
794): each statement's effect lands in the committed table at once (pool
exec); on the first error the loop stops.  The tx opened by Begin buffers
nothing, so the Rollback on the error path discards an empty transaction
and the Commit on the success path adds nothing. -/
def bulkLoop (exec : Table → Entity → Except String Table) :
    Table → List Entity → Table × Option String
  | t, [] => (t, none)
  | t, e :: rest =>
    match exec t e with
    | .error m => (t, some m)
    | .ok t2 => bulkLoop exec t2 rest

/-- BulkUpdate (mysql_database.go:734): empty input short-circuits;
otherwise the loop runs, an error yields (0, err) with no events after the
no-op Rollback, success yields len(entities) and one Update event per
entity.  Result: final committed table, (affected, error), events. -/
def bulkUpdate (failsFor : String → Bool) (t : Table) (entities : List Entity)
    (hasBus : Bool) : Table × (Int × Option String) × List (Nat × Entity) :=
  if entities.length = 0 then (t, (0, none), [])
  else
    match bulkLoop (execUpdate failsFor) t entities with
    | (t2, some m) => (t2, (0, some m), [])
    | (t2, none) =>
      (t2, ((entities.length : Int), none),
        entities.flatMap (fun e => publishChange hasBus updateAction (some e)))

/-- BulkUpsert (mysql_database.go:778): same shape as BulkUpdate with the
upsert statement. -/
def bulkUpsert (failsFor : String → Bool) (t : Table) (entities : List Entity)
    (hasBus : Bool) : Table × (Int × Option String) × List (Nat × Entity) :=
  if entities.length = 0 then (t, (0, none), [])
  else
    match bulkLoop (execUpsert failsFor) t entities with
    | (t2, some m) => (t2, (0, some m), [])
    | (t2, none) =>
      (t2, ((entities.length : Int), none),
        entities.flatMap (fun e => publishChange hasBus updateAction (some e)))

/-- A two-row table and a batch whose second statement the backend
rejects. -/
def tblEx : Table := [("1", "old1"), ("2", "old2")]

/-- First batch entity. -/
def bEnt1 : Entity := ⟨"1", "tbl", "k", "new1"⟩

/-- Second batch entity, whose statement the backend rejects. -/
def bEnt2 : Entity := ⟨"2", "tbl", "k", "new2"⟩

/-- The backend oracle failing exactly the statement for id 2. -/
def failOn2 (i : String) : Bool := i = "2"

/-- C1: evaluating BulkUpdate and BulkUpsert on a two-entity batch whose
second statement fails: both return 0 with the error and publish nothing —
but the first entity's write, issued through the pooled connection rather
than the opened transaction, stays committed, so the table differs from its
pre-call state and the all-or-nothing rollback promised by the claim (and
by the functions' own transaction comments) does not happen. -/
theorem c1_bulk_rollback_eval :
    bulkUpdate failOn2 tblEx [bEnt1, bEnt2] true =
      ([("1", "new1"), ("2", "old2")],
        (0, some "exec failed for entity 2"), []) ∧
    bulkUpsert failOn2 tblEx [bEnt1, bEnt2] true =
      ([("1", "new1"), ("2", "old2")],
        (0, some "exec failed for entity 2"), []) ∧
    ([("1", "new1"), ("2", "old2")] : Table) ≠ tblEx := by
  refine ⟨by decide, by decide, by decide⟩

/-- Outcome of one BulkSetFields call: the (affected, error) return pair,
whether the temporary table was created, and whether it still exists when
the call returns. -/
structure SFOutcome where
  affected : Int
  err : Option String
  tmpCreated : Bool
  tmpExistsAfter : Bool
deriving DecidableEq, Repr

/-- BulkSetFields (mysql_database.go:919).  Oracles: `createErr` for the
CREATE TEMP TABLE Exec, `loadErr` for the bulk INSERT into the temp table,
`updateRes` for the join-UPDATE Exec (+RowsAffected).  The source registers
the deferred DROP only after the bulk load, so the load's error path
returns with the temp table still in place; the two later paths drop it. -/
def bulkSetFields (values : List (String × Int))
    (createErr loadErr : Option String) (updateRes : Except String Int) :
    SFOutcome :=
  if values.length = 0 then ⟨0, none, false, false⟩
  else
    match createErr with
    | some m => ⟨0, some m, false, false⟩
    | none =>
      match loadErr with
      | some m => ⟨0, some m, true, true⟩
      | none =>
        match updateRes with
        | .error m => ⟨0, some m, true, false⟩
        | .ok n => ⟨n, none, true, false⟩

/-- C4 counterexample: with a non-empty value map, a successful temp-table
creation and a failing bulk load, the call returns the error with the
temporary table still existing — refuting the claim that the drop is
guaranteed on every path after creation, including a bulk-load failure. -/
theorem c4_counterexample :
    (bulkSetFields [("1", 5)] none (some "load failed") (.ok 0)).tmpExistsAfter
        = true ∧
    (bulkSetFields [("1", 5)] none (some "load failed") (.ok 0)).err =
      some "load failed" := by
  exact ⟨by decide, by decide⟩

/-- C4 amended: for a non-empty map BulkSetFields creates the temp table,
bulk-loads the pairs and issues the single join-update, and the deferred
drop — registered only after a successful bulk load — is guaranteed for
the join-update step whether it errors or succeeds; a bulk-load failure,
however, returns its error with the temp table left in place. -/
theorem c4_tmp_drop_scope (values : List (String × Int))
    (updateRes : Except String Int) (hne : values.length ≠ 0) :
    ((bulkSetFields values none none updateRes).tmpCreated = true ∧
      (bulkSetFields values none none updateRes).tmpExistsAfter = false ∧
      (bulkSetFields values none none updateRes).err =
        (match updateRes with | .error m => some m | .ok _ => none)) ∧
    (∀ m, bulkSetFields values none (some m) updateRes =
      ⟨0, some m, true, true⟩) := by
  constructor
  · unfold bulkSetFields
    rw [if_neg hne]
    cases updateRes with
    | error m => exact ⟨rfl, rfl, rfl⟩
    | ok n => exact ⟨rfl, rfl, rfl⟩
  · intro m
    unfold bulkSetFields
    rw [if_neg hne]

/-- C4 witness: the amended drop rule evaluated on a one-entry map, for a
successful update and for a failing load. -/
theorem c4_witness :
    (bulkSetFields [("1", 5)] none none (.ok 1)).tmpExistsAfter = false ∧
    bulkSetFields [("1", 5)] none (some "x") (.ok 1) =
      ⟨0, some "x", true, true⟩ :=
  ⟨(c4_tmp_drop_scope [("1", 5)] (.ok 1) (by decide)).1.2.1,
   (c4_tmp_drop_scope [("1", 5)] (.ok 1) (by decide)).2 "x"⟩

/-- What one iteration of the tunnel's accept loop does to the process. -/
inductive IterOutcome
  | processFatal
  | pairSpawned
deriving DecidableEq, Repr

/-- One iteration of createSSHTunnel's accept loop (mysql_database.go:378):
an accept error calls log.Fatalf (process exit), and a backend dial error
for the accepted connection also calls log.Fatalf; only when both succeed
is the splicing pair spawned. -/
def acceptIteration (acceptOk dialOk : Bool) : IterOutcome :=
  if acceptOk = false then .processFatal
  else if dialOk = false then .processFatal
  else .pairSpawned

/-- What a finished splice pair leaves behind. -/
structure SpliceResult where
  localClosed : Bool
  remoteClosed : Bool
  processAlive : Bool
deriving DecidableEq, Repr

/-- copyConn (mysql_database.go:402) plus the deferred closes around it:
the io.Copy error values in both directions are discarded, both connections
are closed, and nothing can terminate the process. -/
def copyConn (_copyToSrcErr _copyToDstErr : Bool) : SpliceResult :=
  ⟨true, true, true⟩

/-- C5 counterexample: an accepted connection whose backend dial fails ends
in log.Fatalf — process termination — refuting the claim that a dial
failure is local to the pair and never terminates the process. -/
theorem c5_counterexample :
    acceptIteration true false = .processFatal := by decide

/-- C5 amended: copy failures are local — the pair's two connections are
closed and the process stays alive — but a backend dial failure for an
accepted connection is treated exactly like a listener accept failure:
log.Fatalf terminates the whole process; only when accept and dial both
succeed is an independent splicing pair spawned. -/
theorem c5_dial_fatal_copy_local :
    (∀ dialOk, acceptIteration false dialOk = .processFatal) ∧
    acceptIteration true false = .processFatal ∧
    acceptIteration true true = .pairSpawned ∧
    (∀ e1 e2, copyConn e1 e2 = ⟨true, true, true⟩) := by
  refine ⟨?_, by decide, by decide, ?_⟩
  · intro dialOk
    cases dialOk <;> decide
  · intro e1 e2
    rfl

end YaafMysql
